import Mathlib

/-!
Verification of the Aembit Edge API client library of this repository.

The library exists in several revisions in the repository; the strict
revision (the full listing embedded in src/lib/README.md, the one with
input validation, JWT format checks, HTTPS enforcement, response-shape
guards, error-body truncation and the FormatError behaviour of
extractCredentialValue) is the baseline contract per section 9 of the
specification, and is the revision whose line ranges the claims cite.
That strict revision is embedded here under its source names.  The
maskSecret helper and the two looser extractCredentialValue revisions
live only in src/lib/aembit.ts and are embedded separately.

Modelling conventions:
- JavaScript runtime values that the response guards inspect are
  modelled by the Json inductive; an absent object property (undefined)
  is Option.none.
- JavaScript numbers are modelled by Rat; Number.isInteger(q) is
  q.den = 1.  Strings are Lean strings (length counts characters where
  JavaScript counts UTF-16 units; the strings involved here are ASCII).
- The HTTP transport (fetch) is a caller-supplied deterministic oracle
  from requests to outcomes.  Each API function returns its result
  together with the list of requests it handed to the transport, which
  makes the issued network attempts observable.
- Host-environment library routines (the WHATWG URL parser, the Date
  parser) are modelled by executable Lean functions restricted to what
  the library observes of them.
-/

/-- Model of a JSON / JavaScript runtime value as observed by the
response-shape guards.  An absent property is represented by
Option.none at use sites. -/
inductive Json where
  | null
  | bool (b : Bool)
  | num (q : Rat)
  | str (s : String)
  | arr (elems : List Json)
  | obj (fields : List (String × Json))

/-- Property access o.k on a JavaScript value: defined members only for
plain objects; member access on every other value (including arrays,
whose string-keyed members the library never reads) yields undefined,
that is Option.none. -/
def Json.getField : Json → String → Option Json
  | .obj fields, key => fields.lookup key
  | _, _ => none

/-- The JavaScript in operator restricted to the uses in the guards:
key presence on a plain object, false elsewhere. -/
def Json.hasField (j : Json) (key : String) : Bool :=
  (j.getField key).isSome

/-- The test typeof v === "object" && v !== null performed by the
guards.  typeof yields "object" for plain objects, arrays and null. -/
def Json.isNonNullObject : Json → Bool
  | .obj _ => true
  | .arr _ => true
  | _ => false

/-- The test typeof v === "string" on a JavaScript value. -/
def Json.isString : Json → Bool
  | .str _ => true
  | _ => false

/-- Error taxonomy of the client library.  The strict revision raises
AembitApiError for the api case and plain Error objects for the
others; the taxonomy names of the specification (ValidationError,
NetworkError, TimeoutError, ParseError, ShapeError, FormatError) label
the raising sites, which is what the constructors record here.  The
api constructor carries endpoint, status, statusText and responseBody
exactly as the AembitApiError class fields do. -/
inductive AembitError where
  | validation (message : String)
  | network (message : String)
  | timeout (timeoutMs : Rat)
  | api (endpoint : String) (status : Nat) (statusText : String) (responseBody : String)
  | parse (message : String)
  | shape (message : String)
  | format (message : String)
deriving DecidableEq

/-- Message of the AembitApiError constructor:
Aembit (endpoint) failed: (status) (statusText).  The response body is
not part of the message in the strict revision. -/
def aembitApiErrorMessage (endpoint : String) (status : Nat) (statusText : String) : String :=
  "Aembit " ++ endpoint ++ " failed: " ++ toString status ++ " " ++ statusText

/-- The message property of each raised error object. -/
def AembitError.message : AembitError → String
  | .validation m => m
  | .network m => m
  | .timeout ms => "Request timed out after " ++ toString ms.num ++ "ms"
  | .api endpoint status statusText _ => aembitApiErrorMessage endpoint status statusText
  | .parse m => m
  | .shape m => m
  | .format m => m

/-- Recognizer for the validation kind. -/
def AembitError.isValidation : AembitError → Bool
  | .validation _ => true
  | _ => false

-- Constants of the strict revision.

def AUTH_ENDPOINT : String := "/edge/v1/auth"

def CREDENTIALS_ENDPOINT : String := "/edge/v1/credentials"

def DEFAULT_TIMEOUT_MS : Rat := 30000

def MIN_TIMEOUT_MS : Rat := 1000

def MAX_TIMEOUT_MS : Rat := 300000

def MIN_PORT : Rat := 1

def MAX_PORT : Rat := 65535

def MAX_ERROR_BODY_BYTES : Nat := 10000

def MAX_EXPIRES_IN_SECONDS : Rat := 31536000

def DEFAULT_TRANSPORT_PROTOCOL : String := "TCP"

def VALID_TRANSPORT_PROTOCOLS : List String := ["TCP", "UDP"]

def CREDENTIAL_TYPE_VALUES : List String := ["ApiKey", "UsernamePassword", "OAuthToken"]

-- Executable models of the JavaScript string primitives the library
-- uses, written by structural recursion over the character list so
-- that concrete instances evaluate inside the kernel.

/-- Splits a character list at every occurrence of the separator
character, JavaScript split semantics (an empty input yields one empty
part, a trailing separator yields a trailing empty part). -/
def splitCharAux (sep : Char) : List Char → List Char → List (List Char)
  | [], acc => [acc.reverse]
  | c :: cs, acc =>
    if c = sep then acc.reverse :: splitCharAux sep cs []
    else splitCharAux sep cs (c :: acc)

/-- The JavaScript s.split(sep) for a one-character separator. -/
def jsSplitOnChar (s : String) (sep : Char) : List String :=
  (splitCharAux sep s.toList []).map String.mk

/-- Splits at every non-overlapping occurrence of a double colon,
scanning left to right. -/
def splitColonColonAux : List Char → List Char → List (List Char)
  | [], acc => [acc.reverse]
  | ':' :: ':' :: cs, acc => acc.reverse :: splitColonColonAux cs []
  | c :: cs, acc => splitColonColonAux cs (c :: acc)

/-- The JavaScript s.split with the two-character separator of two
colons, as the IPv6 model uses it. -/
def jsSplitOnColonColon (s : String) : List String :=
  (splitColonColonAux s.toList []).map String.mk

/-- The JavaScript s.trim(). -/
def jsTrim (s : String) : String :=
  String.mk (((s.toList.dropWhile Char.isWhitespace).reverse.dropWhile Char.isWhitespace).reverse)

/-- The JavaScript s.startsWith(pre). -/
def jsStartsWith (s pre : String) : Bool :=
  pre.toList.isPrefixOf s.toList

/-- The JavaScript s.endsWith(suf). -/
def jsEndsWith (s suf : String) : Bool :=
  suf.toList.reverse.isPrefixOf s.toList.reverse

/-- The JavaScript s.includes(c) for a one-character needle. -/
def jsContainsChar (s : String) (c : Char) : Bool :=
  s.toList.contains c

/-- The JavaScript s.slice(0, n) for a natural n. -/
def jsTake (s : String) (n : Nat) : String :=
  String.mk (s.toList.take n)

/-- The JavaScript s.slice(n) for a natural n. -/
def jsDrop (s : String) (n : Nat) : String :=
  String.mk (s.toList.drop n)

/-- Removal of the last n characters. -/
def jsDropRight (s : String) (n : Nat) : String :=
  String.mk (s.toList.take (s.toList.length - n))

/-- Numeric value of a list of decimal digit characters. -/
def digitsToNat (cs : List Char) : Nat :=
  cs.foldl (fun a c => a * 10 + (c.toNat - 48)) 0

-- Validation helpers of the strict revision.  Each throw site becomes
-- an Except.error carrying the validation kind.

/-- Translation of requireNonEmptyString.  The typeof check of the
source defends against non-string runtime values, which the typed
embedding cannot represent; the reachable branch is the trim check. -/
def requireNonEmptyString (value : String) (name : String) : Except AembitError Unit :=
  if (jsTrim value).length = 0 then
    .error (.validation (name ++ " cannot be empty or whitespace-only"))
  else
    .ok ()

/-- Character class of one JWT segment: A-Z, a-z, 0-9, underscore,
hyphen. -/
def jwtSegmentChar (c : Char) : Bool :=
  c.isAlphanum || c = '_' || c = '-'

/-- Test of JWT_PATTERN: three non-empty base64url segments separated
by dots.  Splitting on the dot is equivalent to the anchored regular
expression because the segment character class excludes the dot. -/
def jwtPatternTest (s : String) : Bool :=
  match jsSplitOnChar s '.' with
  | [a, b, c] =>
    a.length > 0 && a.toList.all jwtSegmentChar &&
    b.length > 0 && b.toList.all jwtSegmentChar &&
    c.length > 0 && c.toList.all jwtSegmentChar
  | _ => false

/-- Translation of requireJwtFormat. -/
def requireJwtFormat (value : String) (name : String) : Except AembitError Unit :=
  match requireNonEmptyString value name with
  | .error e => .error e
  | .ok _ =>
    if jwtPatternTest value then
      .ok ()
    else
      .error (.validation (name ++ " must be a valid JWT format (three base64url segments separated by dots)"))

-- Model of the WHATWG URL parser, restricted to what the library
-- observes: whether new URL(s) succeeds, the protocol of the result,
-- and the serialization of resolving an absolute-path reference
-- against the base.  Normalizations the library never observes
-- (case-folding of the host, dropping default ports, percent-escape
-- handling) are not modelled.

structure UrlParts where
  scheme : String
  authority : String
deriving DecidableEq

/-- Character allowed in a URL scheme after the first character. -/
def schemeTailChar (c : Char) : Bool :=
  c.isAlphanum || c = '+' || c = '-' || c = '.'

/-- Schemes the WHATWG standard treats as special; their URLs carry an
authority component that must be non-empty for all of them but file. -/
def specialSchemes : List String := ["http", "https", "ws", "wss", "ftp"]

/-- Model of new URL(s) for absolute URL strings: locate the scheme,
and for special schemes extract the non-empty authority that follows
the slashes.  Returns none where the constructor would throw. -/
def jsUrlParse (s : String) : Option UrlParts :=
  let cs := s.toList
  let pre := cs.takeWhile (fun c => c ≠ ':')
  if pre.length = cs.length then
    none
  else
    match pre with
    | [] => none
    | c0 :: rest =>
      if c0.isAlpha && rest.all schemeTailChar then
        let scheme := String.mk (pre.map Char.toLower)
        let after := cs.drop (pre.length + 1)
        if specialSchemes.contains scheme then
          let afterSlashes := after.dropWhile (fun c => c = '/' || c = '\\')
          let auth := afterSlashes.takeWhile (fun c => c ≠ '/' && c ≠ '?' && c ≠ '#' && c ≠ '\\')
          if auth.isEmpty then none else some ⟨scheme, String.mk auth⟩
        else
          some ⟨scheme, ""⟩
      else
        none

/-- Model of new URL(path, base).toString() for the absolute paths the
library uses: scheme, authority and the path of the reference. -/
def urlResolve (base : String) (path : String) : String :=
  match jsUrlParse base with
  | some u => u.scheme ++ "://" ++ u.authority ++ path
  | none => path

/-- Translation of validateBaseUrl: non-empty, parses as a URL, and
the protocol is https. -/
def validateBaseUrl (baseUrl : String) : Except AembitError Unit :=
  match requireNonEmptyString baseUrl "baseUrl" with
  | .error e => .error e
  | .ok _ =>
    match jsUrlParse baseUrl with
    | none => .error (.validation "Invalid baseUrl format")
    | some u =>
      if u.scheme ++ ":" = "https:" then
        .ok ()
      else
        .error (.validation ("baseUrl must use HTTPS, got protocol: " ++ u.scheme ++ ":"))

/-- Translation of validatePort: an integer between MIN_PORT and
MAX_PORT. -/
def validatePort (port : Rat) : Except AembitError Unit :=
  if port.den = 1 ∧ MIN_PORT ≤ port ∧ port ≤ MAX_PORT then
    .ok ()
  else
    .error (.validation "port must be an integer between 1 and 65535")

/-- Translation of resolveTimeout: absent yields the default, present
values must be integers between MIN_TIMEOUT_MS and MAX_TIMEOUT_MS. -/
def resolveTimeout (timeoutMs : Option Rat) : Except AembitError Rat :=
  match timeoutMs with
  | none => .ok DEFAULT_TIMEOUT_MS
  | some t =>
    if t.den = 1 ∧ MIN_TIMEOUT_MS ≤ t ∧ t ≤ MAX_TIMEOUT_MS then
      .ok t
    else
      .error (.validation "timeoutMs must be an integer between 1000 and 300000")

/-- Translation of validateCredentialType: membership in the known
CREDENTIAL_TYPE values. -/
def validateCredentialType (credentialType : String) : Except AembitError Unit :=
  if CREDENTIAL_TYPE_VALUES.contains credentialType then
    .ok ()
  else
    .error (.validation ("Invalid credentialType: " ++ credentialType ++ ". Must be one of: ApiKey, UsernamePassword, OAuthToken"))

/-- Translation of validateTransportProtocol: membership in the known
transport protocol values. -/
def validateTransportProtocol (protocol : String) : Except AembitError Unit :=
  if VALID_TRANSPORT_PROTOCOLS.contains protocol then
    .ok ()
  else
    .error (.validation ("Invalid transportProtocol: " ++ protocol ++ ". Must be one of: TCP, UDP"))

-- Host validation of the strict revision: hostname and IPv4 regular
-- expressions, then the IPv6 branch that strips surrounding brackets
-- and asks the URL parser.

/-- Test of one label of HOSTNAME_PATTERN: 1 to 63 characters,
alphanumeric first and last character, alphanumeric or hyphen in
between. -/
def hostnameLabelOk (l : String) : Bool :=
  let cs := l.toList
  match cs with
  | [] => false
  | c0 :: rest =>
    cs.length ≤ 63 && c0.isAlphanum &&
    (match rest.getLast? with
     | none => true
     | some cl => cl.isAlphanum && (rest.dropLast.all fun c => c.isAlphanum || c = '-'))

/-- Test of HOSTNAME_PATTERN: dot-separated labels.  Splitting on the
dot is equivalent to the anchored regular expression because the label
character class excludes the dot. -/
def hostnamePatternTest (host : String) : Bool :=
  (jsSplitOnChar host '.').all hostnameLabelOk

/-- Test of one octet of IPV4_PATTERN: one to three decimal digits
with value at most 255 (leading zeros allowed, as the alternation of
the source pattern admits them). -/
def ipv4OctetOk (s : String) : Bool :=
  let cs := s.toList
  1 ≤ cs.length && cs.length ≤ 3 && cs.all Char.isDigit &&
  digitsToNat cs ≤ 255

/-- Test of IPV4_PATTERN: four dot-separated octets. -/
def ipv4PatternTest (host : String) : Bool :=
  let parts := jsSplitOnChar host '.'
  parts.length = 4 && parts.all ipv4OctetOk

/-- Hexadecimal digit of an IPv6 piece. -/
def isHexDigitChar (c : Char) : Bool :=
  c.isDigit || ('a' ≤ c && c ≤ 'f') || ('A' ≤ c && c ≤ 'F')

/-- One plain 16-bit piece of an IPv6 address: one to four hex
digits. -/
def ipv6PieceOk (s : String) : Bool :=
  let cs := s.toList
  1 ≤ cs.length && cs.length ≤ 4 && cs.all isHexDigitChar

/-- Embedded dotted-quad IPv4 ending of an IPv6 address per the WHATWG
host parser: four decimal parts, each at most 255, no leading
zeros. -/
def ipv4InIpv6Ok (s : String) : Bool :=
  let parts := jsSplitOnChar s '.'
  parts.length = 4 && parts.all fun p =>
    let cs := p.toList
    1 ≤ cs.length && cs.length ≤ 3 && cs.all Char.isDigit &&
    digitsToNat cs ≤ 255 &&
    (cs.length = 1 || cs.head? ≠ some '0')

/-- Weight of a colon-separated piece list, where a final dotted-quad
counts for two 16-bit pieces; none if some piece is malformed. -/
def ipv6PartsWeight : List String → Option Nat
  | [] => some 0
  | [last] =>
    if jsContainsChar last '.' then
      if ipv4InIpv6Ok last then some 2 else none
    else if ipv6PieceOk last then some 1 else none
  | p :: rest =>
    if ipv6PieceOk p then (ipv6PartsWeight rest).map (· + 1) else none

/-- Model of the WHATWG IPv6 host parser (what new URL with a
bracketed host accepts): at most one double-colon compression, plain
hex pieces elsewhere, an optional trailing embedded IPv4, eight pieces
exactly without compression and at most seven with it. -/
def ipv6Valid (s : String) : Bool :=
  match jsSplitOnColonColon s with
  | [whole] =>
    (ipv6PartsWeight (jsSplitOnChar whole ':')).getD 0 = 8 &&
    (ipv6PartsWeight (jsSplitOnChar whole ':')).isSome
  | [l, r] =>
    let lp := if l = "" then [] else jsSplitOnChar l ':'
    let rp := if r = "" then [] else jsSplitOnChar r ':'
    lp.all ipv6PieceOk &&
    (match ipv6PartsWeight rp with
     | some wr => lp.length + wr ≤ 7
     | none => false)
  | _ => false

/-- The bracket stripping host.replace of validateHost: the anchored
global pattern removes one leading opening bracket and one trailing
closing bracket. -/
def stripBrackets (s : String) : String :=
  let s1 := if jsStartsWith s "[" then jsDrop s 1 else s
  if jsEndsWith s1 "]" then jsDropRight s1 1 else s1

/-- Translation of validateHost: non-empty, then hostname or IPv4 via
the fast regular-expression path, otherwise the IPv6 path through the
URL parser. -/
def validateHost (host : String) : Except AembitError Unit :=
  match requireNonEmptyString host "host" with
  | .error e => .error e
  | .ok _ =>
    if hostnamePatternTest host || ipv4PatternTest host then
      .ok ()
    else if ipv6Valid (stripBrackets host) then
      .ok ()
    else
      .error (.validation "Invalid host format")

/-- Translation of isIPv6: the host contains a colon. -/
def isIPv6 (host : String) : Bool :=
  jsContainsChar host ':'

/-- Translation of formatHostForRequest: wrap bare IPv6 addresses in
brackets, leave everything else unchanged. -/
def formatHostForRequest (host : String) : String :=
  if !isIPv6 host || jsStartsWith host "[" then host
  else "[" ++ host ++ "]"

-- Model of the ECMAScript Date parser for the strings admitted by
-- ISO8601_PATTERN, used by isValidOptionalDateString.

structure IsoTimestamp where
  year : Nat
  month : Nat
  day : Nat
  hour : Nat
  minute : Nat
  second : Nat
  frac : Option (List Char)
  tzOffset : Option (Option (Bool × Nat × Nat))
deriving DecidableEq

/-- Splits exactly n decimal digits off the front of the character
list. -/
def splitDigits (n : Nat) (cs : List Char) : Option (Nat × List Char) :=
  let pre := cs.take n
  if pre.length = n && pre.all Char.isDigit then
    some (pre.foldl (fun a c => a * 10 + (c.toNat - 48)) 0, cs.drop n)
  else
    none

/-- Structural parser equivalent to ISO8601_PATTERN: YYYY-MM-DDTHH:MM:SS,
an optional fraction of one or more digits, and an optional time zone
(Z, or a sign with two digit hours, an optional colon and two digit
minutes).  Returns the components when the whole string matches. -/
def iso8601Parse (s : String) : Option IsoTimestamp := do
  let cs := s.toList
  let (year, cs) ← splitDigits 4 cs
  let ('-' :: cs) := cs | none
  let (month, cs) ← splitDigits 2 cs
  let ('-' :: cs) := cs | none
  let (day, cs) ← splitDigits 2 cs
  let ('T' :: cs) := cs | none
  let (hour, cs) ← splitDigits 2 cs
  let (':' :: cs) := cs | none
  let (minute, cs) ← splitDigits 2 cs
  let (':' :: cs) := cs | none
  let (second, cs) ← splitDigits 2 cs
  let (frac, cs) :=
    match cs with
    | '.' :: rest =>
      let ds := rest.takeWhile Char.isDigit
      (if ds.isEmpty then (none, cs) else (some ds, rest.drop ds.length))
    | _ => (none, cs)
  match cs with
  | [] => some ⟨year, month, day, hour, minute, second, frac, none⟩
  | ['Z'] => some ⟨year, month, day, hour, minute, second, frac, some none⟩
  | sign :: rest =>
    if sign = '+' || sign = '-' then do
      let (oh, rest) ← splitDigits 2 rest
      let rest := match rest with
        | ':' :: rest2 => rest2
        | _ => rest
      let (om, rest) ← splitDigits 2 rest
      let [] := rest | none
      some ⟨year, month, day, hour, minute, second, frac, some (some (sign = '-', oh, om))⟩
    else
      none

/-- Days of each month under the Gregorian leap rule, as the Date
parser bounds them. -/
def daysInMonth (year month : Nat) : Nat :=
  if month = 2 then
    if year % 4 = 0 && (year % 100 ≠ 0 || year % 400 = 0) then 29 else 28
  else if month = 4 || month = 6 || month = 9 || month = 11 then 30
  else 31

/-- Calendar and clock bounds under which the ECMAScript Date parser
yields a valid time value for a string of the ISO shape: month and day
in range, hour at most 23 (or exactly 24:00:00 with a zero fraction),
minutes and seconds at most 59, offset hours at most 23 and offset
minutes at most 59. -/
def isoTimestampValid (c : IsoTimestamp) : Bool :=
  1 ≤ c.month && c.month ≤ 12 &&
  1 ≤ c.day && c.day ≤ daysInMonth c.year c.month &&
  (c.hour ≤ 23 ||
    (c.hour = 24 && c.minute = 0 && c.second = 0 &&
      (match c.frac with
       | none => true
       | some ds => ds.all (fun c => c = '0')))) &&
  c.minute ≤ 59 && c.second ≤ 59 &&
  (match c.tzOffset with
   | some (some (_, oh, om)) => oh ≤ 23 && om ≤ 59
   | _ => true)

/-- Validity of a date string as isValidOptionalDateString tests it:
the ISO8601_PATTERN matches and new Date(s) yields a valid time
value. -/
def isValidIso8601 (s : String) : Bool :=
  match iso8601Parse s with
  | some c => isoTimestampValid c
  | none => false

/-- Translation of isValidOptionalDateString on a possibly absent
property value: absent and null are valid, strings are checked, every
other value is invalid. -/
def isValidOptionalDateString : Option Json → Bool
  | none => true
  | some .null => true
  | some (.str s) => isValidIso8601 s
  | some _ => false

-- Response-shape guards of the strict revision.

/-- Translation of isNonEmptyString on a possibly absent property
value: present, a string, and of positive length. -/
def isNonEmptyString : Option Json → Bool
  | some (.str s) => s.length > 0
  | _ => false

/-- Translation of isAembitTokenDTO: a non-null object with non-empty
accessToken and tokenType strings and an expiresIn that is a positive
integer number at most MAX_EXPIRES_IN_SECONDS. -/
def isAembitTokenDTO (j : Json) : Bool :=
  j.isNonNullObject &&
  isNonEmptyString (j.getField "accessToken") &&
  isNonEmptyString (j.getField "tokenType") &&
  (match j.getField "expiresIn" with
   | some (.num q) => q.den = 1 && 0 < q && q ≤ MAX_EXPIRES_IN_SECONDS
   | _ => false)

/-- Translation of isAembitCredentialsResponse: a non-null object with
credentialType and data members, a valid optional expiresAt, a
non-null object data payload, and per credentialType the required
non-empty string fields. -/
def isAembitCredentialsResponse (j : Json) : Bool :=
  j.isNonNullObject && j.hasField "credentialType" && j.hasField "data" &&
  isValidOptionalDateString (j.getField "expiresAt") &&
  (match j.getField "data" with
   | some data =>
     data.isNonNullObject &&
     (match j.getField "credentialType" with
      | some (.str s) =>
        if s = "ApiKey" then isNonEmptyString (data.getField "apiKey")
        else if s = "UsernamePassword" then
          isNonEmptyString (data.getField "username") && isNonEmptyString (data.getField "password")
        else if s = "OAuthToken" then isNonEmptyString (data.getField "token")
        else false
      | _ => false)
   | none => false)

-- The HTTP transport model.

/-- An HTTP request as the library hands it to fetch.  The body is the
JSON value passed through JSON.stringify. -/
structure HttpRequest where
  url : String
  method : String
  headers : List (String × String)
  body : Json

/-- An HTTP response as the library observes it.  jsonBody is the
result of res.json() (none when the body is not valid JSON) and text
is the result of res.text(); both are observations of the same
underlying byte body. -/
structure HttpResponse where
  status : Nat
  statusText : String
  jsonBody : Option Json
  text : String

/-- The res.ok flag: status in the 2xx range. -/
def HttpResponse.ok (r : HttpResponse) : Bool :=
  200 ≤ r.status && r.status ≤ 299

/-- Outcome of one transport attempt: the promise rejects with an
abort (the timeout fired), rejects with a transport failure, or
resolves with a response. -/
inductive HttpOutcome where
  | timedOut
  | networkFailure (message : String)
  | response (r : HttpResponse)

/-- Translation of fetchWithTimeout over a deterministic transport
oracle: an abort becomes the timeout error carrying the configured
timeout, any other rejection becomes the network error, and a resolved
response is returned. -/
def fetchWithTimeout (net : HttpRequest → HttpOutcome) (req : HttpRequest) (timeoutMs : Rat) : Except AembitError HttpResponse :=
  match net req with
  | .timedOut => .error (.timeout timeoutMs)
  | .networkFailure msg => .error (.network ("Network error: " ++ msg))
  | .response r => .ok r

/-- Translation of parseJsonResponse: failure of res.json() is the
parse error naming the endpoint, a guard failure is the shape error
naming the endpoint, otherwise the parsed value is returned. -/
def parseJsonResponse (r : HttpResponse) (endpoint : String) (guard : Json → Bool) : Except AembitError Json :=
  match r.jsonBody with
  | none => .error (.parse ("Failed to parse JSON from " ++ endpoint))
  | some j =>
    if guard j then .ok j
    else .error (.shape ("Unexpected response shape from " ++ endpoint))

/-- Translation of readErrorBody: the response text truncated to
MAX_ERROR_BODY_BYTES with a truncation marker.  The catch branch for a
failing body read is not representable in this transport model, where
the text observation always succeeds. -/
def readErrorBody (text : String) : String :=
  if text.length > MAX_ERROR_BODY_BYTES then
    jsTake text MAX_ERROR_BODY_BYTES ++ "... (truncated)"
  else
    text

/-- Translation of formatBearerAuth. -/
def formatBearerAuth (token : String) : String :=
  "Bearer " ++ token

-- Parameter records and request construction of the strict revision.

structure AembitAuthParams where
  baseUrl : String
  clientId : String
  oidcIdentityToken : String
  timeoutMs : Option Rat

/-- The credentialType and transportProtocol fields carry arbitrary
strings, as the runtime values the validators defend against do; the
validators constrain them to the known enumerations. -/
structure AembitGetCredentialsParams where
  baseUrl : String
  bearerToken : String
  oidcIdentityToken : String
  host : String
  port : Rat
  credentialType : String
  transportProtocol : Option String
  timeoutMs : Option Rat

/-- Wire body of the auth request: clientId at the top level and the
identity token nested under client.oidc. -/
def authRequestBody (p : AembitAuthParams) : Json :=
  .obj [("clientId", .str p.clientId),
        ("client", .obj [("oidc", .obj [("identityToken", .str p.oidcIdentityToken)])])]

/-- The POST request aembitAuthWithOidc builds. -/
def authRequestOf (p : AembitAuthParams) : HttpRequest :=
  { url := urlResolve p.baseUrl AUTH_ENDPOINT
    method := "POST"
    headers := [("Content-Type", "application/json")]
    body := authRequestBody p }

/-- Wire body of the credentials request: the identity token under
client.oidc, the target server with the formatted host, and the
credential type. -/
def credsRequestBody (p : AembitGetCredentialsParams) : Json :=
  .obj [("client", .obj [("oidc", .obj [("identityToken", .str p.oidcIdentityToken)])]),
        ("server", .obj [("transportProtocol", .str (p.transportProtocol.getD DEFAULT_TRANSPORT_PROTOCOL)),
                         ("host", .str (formatHostForRequest p.host)),
                         ("port", .num p.port)]),
        ("credentialType", .str p.credentialType)]

/-- The POST request aembitGetCredentials builds. -/
def credsRequestOf (p : AembitGetCredentialsParams) : HttpRequest :=
  { url := urlResolve p.baseUrl CREDENTIALS_ENDPOINT
    method := "POST"
    headers := [("Content-Type", "application/json"),
                ("Authorization", formatBearerAuth p.bearerToken)]
    body := credsRequestBody p }

-- The two API operations.  Each is split into the pure phase that runs
-- before any network activity (timeout resolution, input validation,
-- request construction, in source order) and the handling of the
-- transport outcome; the top-level function returns the result
-- together with the list of requests handed to the transport.

/-- Validation and request construction of aembitAuthWithOidc, in the
order of the source: resolveTimeout, validateBaseUrl, clientId,
oidcIdentityToken. -/
def aembitAuthPrepare (p : AembitAuthParams) : Except AembitError (HttpRequest × Rat) :=
  match resolveTimeout p.timeoutMs with
  | .error e => .error e
  | .ok timeout =>
    match validateBaseUrl p.baseUrl with
    | .error e => .error e
    | .ok _ =>
      match requireNonEmptyString p.clientId "clientId" with
      | .error e => .error e
      | .ok _ =>
        match requireJwtFormat p.oidcIdentityToken "oidcIdentityToken" with
        | .error e => .error e
        | .ok _ => .ok (authRequestOf p, timeout)

/-- Response handling of aembitAuthWithOidc: non-2xx raises the
AembitApiError with the truncated body, otherwise the body is parsed
and checked against isAembitTokenDTO. -/
def authHandleResponse (fetched : Except AembitError HttpResponse) : Except AembitError Json :=
  match fetched with
  | .error e => .error e
  | .ok r =>
    if r.ok then parseJsonResponse r AUTH_ENDPOINT isAembitTokenDTO
    else .error (.api AUTH_ENDPOINT r.status r.statusText (readErrorBody r.text))

/-- Translation of aembitAuthWithOidc over a transport oracle; the
second component lists the requests handed to the transport. -/
def aembitAuthWithOidc (net : HttpRequest → HttpOutcome) (p : AembitAuthParams) :
    Except AembitError Json × List HttpRequest :=
  match aembitAuthPrepare p with
  | .error e => (.error e, [])
  | .ok (req, timeout) => (authHandleResponse (fetchWithTimeout net req timeout), [req])

/-- Validation and request construction of aembitGetCredentials, in
the order of the source: resolveTimeout, validateBaseUrl, bearerToken,
oidcIdentityToken, host, port, credentialType, transportProtocol. -/
def aembitGetCredentialsPrepare (p : AembitGetCredentialsParams) : Except AembitError (HttpRequest × Rat) :=
  match resolveTimeout p.timeoutMs with
  | .error e => .error e
  | .ok timeout =>
    match validateBaseUrl p.baseUrl with
    | .error e => .error e
    | .ok _ =>
      match requireJwtFormat p.bearerToken "bearerToken" with
      | .error e => .error e
      | .ok _ =>
        match requireJwtFormat p.oidcIdentityToken "oidcIdentityToken" with
        | .error e => .error e
        | .ok _ =>
          match validateHost p.host with
          | .error e => .error e
          | .ok _ =>
            match validatePort p.port with
            | .error e => .error e
            | .ok _ =>
              match validateCredentialType p.credentialType with
              | .error e => .error e
              | .ok _ =>
                match validateTransportProtocol (p.transportProtocol.getD DEFAULT_TRANSPORT_PROTOCOL) with
                | .error e => .error e
                | .ok _ => .ok (credsRequestOf p, timeout)

/-- Response handling of aembitGetCredentials: non-2xx raises the
AembitApiError with the truncated body, otherwise the body is parsed
and checked against isAembitCredentialsResponse. -/
def credsHandleResponse (fetched : Except AembitError HttpResponse) : Except AembitError Json :=
  match fetched with
  | .error e => .error e
  | .ok r =>
    if r.ok then parseJsonResponse r CREDENTIALS_ENDPOINT isAembitCredentialsResponse
    else .error (.api CREDENTIALS_ENDPOINT r.status r.statusText (readErrorBody r.text))

/-- Translation of aembitGetCredentials over a transport oracle; the
second component lists the requests handed to the transport. -/
def aembitGetCredentials (net : HttpRequest → HttpOutcome) (p : AembitGetCredentialsParams) :
    Except AembitError Json × List HttpRequest :=
  match aembitGetCredentialsPrepare p with
  | .error e => (.error e, [])
  | .ok (req, timeout) => (credsHandleResponse (fetchWithTimeout net req timeout), [req])

-- The typed credentials union and the pure helpers.

/-- The AembitCredentialsResponse tagged union.  The expiresAt field
distinguishes absent (none), null (some none) and a string value
(some (some s)). -/
inductive AembitCredentialsResponse where
  | apiKey (expiresAt : Option (Option String)) (apiKeyValue : String)
  | usernamePassword (expiresAt : Option (Option String)) (username : String) (password : String)
  | oauthToken (expiresAt : Option (Option String)) (token : String)
deriving DecidableEq

/-- Well-formedness of a typed credentials value, the typed counterpart
of what isAembitCredentialsResponse admits on the wire: the data
fields of the variant are non-empty and expiresAt, when present, is
null or a valid ISO 8601 timestamp. -/
def wellFormedCredsResponse : AembitCredentialsResponse → Bool
  | .apiKey e k => k.length > 0 && isValidExpiresAt e
  | .usernamePassword e u pw => u.length > 0 && pw.length > 0 && isValidExpiresAt e
  | .oauthToken e t => t.length > 0 && isValidExpiresAt e
where
  isValidExpiresAt : Option (Option String) → Bool
  | none => true
  | some none => true
  | some (some s) => isValidIso8601 s

/-- Translation of extractCredentialValue of the strict revision
(listing in src/lib/README.md): null propagates, ApiKey yields the
key, OAuthToken yields the token, UsernamePassword yields
username:password unless the username contains a colon, in which case
the FormatError of the taxonomy is raised. -/
def extractCredentialValue : Option AembitCredentialsResponse → Except AembitError (Option String)
  | none => .ok none
  | some (.apiKey _ k) => .ok (some k)
  | some (.oauthToken _ t) => .ok (some t)
  | some (.usernamePassword _ u pw) =>
    if jsContainsChar u ':' then
      .error (.format "Username contains a colon, which is not allowed per RFC 7617 Basic Auth format")
    else
      .ok (some (u ++ ":" ++ pw))

/-- Translation of the extractCredentialValue revision at
src/lib/aembit.ts lines 480-495, which concatenates the
UsernamePassword pair unconditionally. -/
def extractCredentialValueV2 : Option AembitCredentialsResponse → Option String
  | none => none
  | some (.apiKey _ k) => some k
  | some (.oauthToken _ t) => some t
  | some (.usernamePassword _ u pw) => some (u ++ ":" ++ pw)

/-- Translation of the extractCredentialValue revision at
src/lib/aembit.ts lines 616-631, which yields null for the
UsernamePassword variant. -/
def extractCredentialValueV3 : Option AembitCredentialsResponse → Option String
  | none => none
  | some (.apiKey _ k) => some k
  | some (.oauthToken _ t) => some t
  | some (.usernamePassword _ _ _) => none

-- maskSecret of src/lib/aembit.ts lines 633-643.

/-- Options record of maskSecret; absent fields take the defaults 4,
4 and four asterisks. -/
structure MaskSecretOptions where
  visibleStart : Option Nat
  visibleEnd : Option Nat
  mask : Option String
deriving DecidableEq

/-- The JavaScript value.slice(-n) observed for a natural n: the empty
count is the whole string, because slice(-0) is slice(0); otherwise
the last n characters (clamped at the full string). -/
def jsSliceFromEnd (s : String) (n : Nat) : String :=
  if n = 0 then s else jsDrop s (s.length - min n s.length)

/-- Translation of maskSecret: null for every non-string value; the
mask alone when the string is no longer than visibleStart plus
visibleEnd; otherwise the leading visibleStart characters, the mask,
and value.slice(-visibleEnd). -/
def maskSecret (value : Json) (options : Option MaskSecretOptions) : Option String :=
  match value with
  | .str s =>
    let visibleStart := (options.bind MaskSecretOptions.visibleStart).getD 4
    let visibleEnd := (options.bind MaskSecretOptions.visibleEnd).getD 4
    let mask := (options.bind MaskSecretOptions.mask).getD "****"
    if s.length ≤ visibleStart + visibleEnd then
      some mask
    else
      some (jsTake s visibleStart ++ mask ++ jsSliceFromEnd s visibleEnd)
  | _ => none

-- Validity predicates naming the per-input validator outcomes.

/-- All inputs of aembitAuthWithOidc pass validation. -/
def authParamsValid (p : AembitAuthParams) : Prop :=
  (resolveTimeout p.timeoutMs).toBool = true ∧
  validateBaseUrl p.baseUrl = .ok () ∧
  requireNonEmptyString p.clientId "clientId" = .ok () ∧
  requireJwtFormat p.oidcIdentityToken "oidcIdentityToken" = .ok ()

/-- All inputs of aembitGetCredentials pass validation. -/
def credsParamsValid (p : AembitGetCredentialsParams) : Prop :=
  (resolveTimeout p.timeoutMs).toBool = true ∧
  validateBaseUrl p.baseUrl = .ok () ∧
  requireJwtFormat p.bearerToken "bearerToken" = .ok () ∧
  requireJwtFormat p.oidcIdentityToken "oidcIdentityToken" = .ok () ∧
  validateHost p.host = .ok () ∧
  validatePort p.port = .ok () ∧
  validateCredentialType p.credentialType = .ok () ∧
  validateTransportProtocol (p.transportProtocol.getD DEFAULT_TRANSPORT_PROTOCOL) = .ok ()

deriving instance DecidableEq for Except

instance (p : AembitAuthParams) : Decidable (authParamsValid p) := by
  unfold authParamsValid; infer_instance

instance (p : AembitGetCredentialsParams) : Decidable (credsParamsValid p) := by
  unfold credsParamsValid; infer_instance

-- Helper lemmas about the validators and the pure preparation phase.

lemma exceptToBool_eq_true {ε α : Type} (e : Except ε α) : e.toBool = true ↔ ∃ a, e = .ok a := by
  cases e <;> simp [Except.toBool]

lemma resolveTimeout_error_isValidation {t : Option Rat} {e : AembitError}
    (h : resolveTimeout t = .error e) : e.isValidation = true := by
  cases t with
  | none => cases h
  | some q =>
    simp only [resolveTimeout] at h
    by_cases hc : q.den = 1 ∧ MIN_TIMEOUT_MS ≤ q ∧ q ≤ MAX_TIMEOUT_MS
    · rw [if_pos hc] at h; cases h
    · rw [if_neg hc] at h; cases h; rfl

lemma requireNonEmptyString_error_isValidation {v n : String} {e : AembitError}
    (h : requireNonEmptyString v n = .error e) : e.isValidation = true := by
  unfold requireNonEmptyString at h
  split at h
  · cases h; rfl
  · cases h

lemma requireJwtFormat_error_isValidation {v n : String} {e : AembitError}
    (h : requireJwtFormat v n = .error e) : e.isValidation = true := by
  unfold requireJwtFormat at h
  split at h
  · rename_i e0 heq
    cases h
    exact requireNonEmptyString_error_isValidation heq
  · split at h
    · cases h
    · cases h; rfl

lemma validateBaseUrl_error_isValidation {v : String} {e : AembitError}
    (h : validateBaseUrl v = .error e) : e.isValidation = true := by
  unfold validateBaseUrl at h
  split at h
  · rename_i e0 heq
    cases h
    exact requireNonEmptyString_error_isValidation heq
  · split at h
    · cases h; rfl
    · split at h
      · cases h
      · cases h; rfl

lemma validateHost_error_isValidation {v : String} {e : AembitError}
    (h : validateHost v = .error e) : e.isValidation = true := by
  unfold validateHost at h
  split at h
  · rename_i e0 heq
    cases h
    exact requireNonEmptyString_error_isValidation heq
  · split at h
    · cases h
    · split at h
      · cases h
      · cases h; rfl

lemma validatePort_error_isValidation {q : Rat} {e : AembitError}
    (h : validatePort q = .error e) : e.isValidation = true := by
  unfold validatePort at h
  by_cases hc : q.den = 1 ∧ MIN_PORT ≤ q ∧ q ≤ MAX_PORT
  · rw [if_pos hc] at h; cases h
  · rw [if_neg hc] at h; cases h; rfl

lemma validateCredentialType_error_isValidation {v : String} {e : AembitError}
    (h : validateCredentialType v = .error e) : e.isValidation = true := by
  unfold validateCredentialType at h
  split at h
  · cases h
  · cases h; rfl

lemma validateTransportProtocol_error_isValidation {v : String} {e : AembitError}
    (h : validateTransportProtocol v = .error e) : e.isValidation = true := by
  unfold validateTransportProtocol at h
  split at h
  · cases h
  · cases h; rfl

lemma requireJwtFormat_ok_pattern {v n : String}
    (h : requireJwtFormat v n = .ok ()) : jwtPatternTest v = true := by
  unfold requireJwtFormat at h
  split at h
  · cases h
  · split at h
    · assumption
    · cases h

lemma aembitAuthPrepare_ok_elim {p : AembitAuthParams} {x : HttpRequest × Rat}
    (h : aembitAuthPrepare p = .ok x) :
    resolveTimeout p.timeoutMs = .ok x.2 ∧
    validateBaseUrl p.baseUrl = .ok () ∧
    requireNonEmptyString p.clientId "clientId" = .ok () ∧
    requireJwtFormat p.oidcIdentityToken "oidcIdentityToken" = .ok () ∧
    x.1 = authRequestOf p := by
  unfold aembitAuthPrepare at h
  split at h
  · cases h
  · rename_i t1 heq1
    split at h
    · cases h
    · rename_i u2 heq2
      split at h
      · cases h
      · rename_i u3 heq3
        split at h
        · cases h
        · rename_i u4 heq4
          cases h
          exact ⟨heq1, by cases u2; exact heq2, by cases u3; exact heq3, by cases u4; exact heq4, rfl⟩

lemma aembitAuthPrepare_intro {p : AembitAuthParams} {t : Rat}
    (h1 : resolveTimeout p.timeoutMs = .ok t)
    (h2 : validateBaseUrl p.baseUrl = .ok ())
    (h3 : requireNonEmptyString p.clientId "clientId" = .ok ())
    (h4 : requireJwtFormat p.oidcIdentityToken "oidcIdentityToken" = .ok ()) :
    aembitAuthPrepare p = .ok (authRequestOf p, t) := by
  unfold aembitAuthPrepare
  rw [h1, h2, h3, h4]

lemma aembitGetCredentialsPrepare_ok_elim {p : AembitGetCredentialsParams} {x : HttpRequest × Rat}
    (h : aembitGetCredentialsPrepare p = .ok x) :
    resolveTimeout p.timeoutMs = .ok x.2 ∧
    validateBaseUrl p.baseUrl = .ok () ∧
    requireJwtFormat p.bearerToken "bearerToken" = .ok () ∧
    requireJwtFormat p.oidcIdentityToken "oidcIdentityToken" = .ok () ∧
    validateHost p.host = .ok () ∧
    validatePort p.port = .ok () ∧
    validateCredentialType p.credentialType = .ok () ∧
    validateTransportProtocol (p.transportProtocol.getD DEFAULT_TRANSPORT_PROTOCOL) = .ok () ∧
    x.1 = credsRequestOf p := by
  unfold aembitGetCredentialsPrepare at h
  split at h
  · cases h
  · rename_i t1 heq1
    split at h
    · cases h
    · rename_i u2 heq2
      split at h
      · cases h
      · rename_i u3 heq3
        split at h
        · cases h
        · rename_i u4 heq4
          split at h
          · cases h
          · rename_i u5 heq5
            split at h
            · cases h
            · rename_i u6 heq6
              split at h
              · cases h
              · rename_i u7 heq7
                split at h
                · cases h
                · rename_i u8 heq8
                  cases h
                  exact ⟨heq1, by cases u2; exact heq2, by cases u3; exact heq3,
                         by cases u4; exact heq4, by cases u5; exact heq5,
                         by cases u6; exact heq6, by cases u7; exact heq7,
                         by cases u8; exact heq8, rfl⟩

lemma aembitGetCredentialsPrepare_intro {p : AembitGetCredentialsParams} {t : Rat}
    (h1 : resolveTimeout p.timeoutMs = .ok t)
    (h2 : validateBaseUrl p.baseUrl = .ok ())
    (h3 : requireJwtFormat p.bearerToken "bearerToken" = .ok ())
    (h4 : requireJwtFormat p.oidcIdentityToken "oidcIdentityToken" = .ok ())
    (h5 : validateHost p.host = .ok ())
    (h6 : validatePort p.port = .ok ())
    (h7 : validateCredentialType p.credentialType = .ok ())
    (h8 : validateTransportProtocol (p.transportProtocol.getD DEFAULT_TRANSPORT_PROTOCOL) = .ok ()) :
    aembitGetCredentialsPrepare p = .ok (credsRequestOf p, t) := by
  unfold aembitGetCredentialsPrepare
  rw [h1, h2, h3, h4, h5, h6, h7, h8]

lemma aembitAuthPrepare_error_isValidation {p : AembitAuthParams} {e : AembitError}
    (h : aembitAuthPrepare p = .error e) : e.isValidation = true := by
  unfold aembitAuthPrepare at h
  split at h
  · rename_i e0 heq
    cases h
    exact resolveTimeout_error_isValidation heq
  · split at h
    · rename_i e0 heq
      cases h
      exact validateBaseUrl_error_isValidation heq
    · split at h
      · rename_i e0 heq
        cases h
        exact requireNonEmptyString_error_isValidation heq
      · split at h
        · rename_i e0 heq
          cases h
          exact requireJwtFormat_error_isValidation heq
        · cases h

lemma aembitGetCredentialsPrepare_error_isValidation {p : AembitGetCredentialsParams} {e : AembitError}
    (h : aembitGetCredentialsPrepare p = .error e) : e.isValidation = true := by
  unfold aembitGetCredentialsPrepare at h
  split at h
  · rename_i e0 heq
    cases h
    exact resolveTimeout_error_isValidation heq
  · split at h
    · rename_i e0 heq
      cases h
      exact validateBaseUrl_error_isValidation heq
    · split at h
      · rename_i e0 heq
        cases h
        exact requireJwtFormat_error_isValidation heq
      · split at h
        · rename_i e0 heq
          cases h
          exact requireJwtFormat_error_isValidation heq
        · split at h
          · rename_i e0 heq
            cases h
            exact validateHost_error_isValidation heq
          · split at h
            · rename_i e0 heq
              cases h
              exact validatePort_error_isValidation heq
            · split at h
              · rename_i e0 heq
                cases h
                exact validateCredentialType_error_isValidation heq
              · split at h
                · rename_i e0 heq
                  cases h
                  exact validateTransportProtocol_error_isValidation heq
                · cases h

lemma authParamsValid_iff_prepare {p : AembitAuthParams} :
    authParamsValid p ↔ ∃ t, aembitAuthPrepare p = .ok (authRequestOf p, t) := by
  constructor
  · rintro ⟨h1, h2, h3, h4⟩
    obtain ⟨t, ht⟩ := (exceptToBool_eq_true _).mp h1
    exact ⟨t, aembitAuthPrepare_intro ht h2 h3 h4⟩
  · rintro ⟨t, ht⟩
    obtain ⟨h1, h2, h3, h4, _⟩ := aembitAuthPrepare_ok_elim ht
    exact ⟨(exceptToBool_eq_true _).mpr ⟨t, h1⟩, h2, h3, h4⟩

lemma credsParamsValid_iff_prepare {p : AembitGetCredentialsParams} :
    credsParamsValid p ↔ ∃ t, aembitGetCredentialsPrepare p = .ok (credsRequestOf p, t) := by
  constructor
  · rintro ⟨h1, h2, h3, h4, h5, h6, h7, h8⟩
    obtain ⟨t, ht⟩ := (exceptToBool_eq_true _).mp h1
    exact ⟨t, aembitGetCredentialsPrepare_intro ht h2 h3 h4 h5 h6 h7 h8⟩
  · rintro ⟨t, ht⟩
    obtain ⟨h1, h2, h3, h4, h5, h6, h7, h8, _⟩ := aembitGetCredentialsPrepare_ok_elim ht
    exact ⟨(exceptToBool_eq_true _).mpr ⟨t, h1⟩, h2, h3, h4, h5, h6, h7, h8⟩

lemma isValidation_exists {e : AembitError} (h : e.isValidation = true) :
    ∃ m, e = .validation m := by
  cases e <;> simp_all [AembitError.isValidation]

lemma credsRequestBody_server_host (p : AembitGetCredentialsParams) :
    ((credsRequestBody p).getField "server").bind (fun s => s.getField "host") =
      some (.str (formatHostForRequest p.host)) := rfl

/-- C2: for every host string containing a colon and not already
bracketed, the server.host field of the request body built by
aembitGetCredentials is the bracketed form of the host; for every
other host (no colon, or already bracketed) the field is the host
unchanged. -/
theorem c2_server_host_formatting (p : AembitGetCredentialsParams) (req : HttpRequest) (t : Rat)
    (h : aembitGetCredentialsPrepare p = .ok (req, t)) :
    ((jsContainsChar p.host ':' = true ∧ jsStartsWith p.host "[" = false) →
      (req.body.getField "server").bind (fun s => s.getField "host") =
        some (.str ("[" ++ p.host ++ "]"))) ∧
    ((jsContainsChar p.host ':' = false ∨ jsStartsWith p.host "[" = true) →
      (req.body.getField "server").bind (fun s => s.getField "host") =
        some (.str p.host)) := by
  have hreq := (aembitGetCredentialsPrepare_ok_elim h).2.2.2.2.2.2.2.2
  simp only at hreq
  subst hreq
  have hbody := credsRequestBody_server_host p
  constructor
  · rintro ⟨hc, hb⟩
    rw [show (credsRequestOf p).body = credsRequestBody p from rfl, hbody]
    simp [formatHostForRequest, isIPv6, hc, hb]
  · intro hcb
    rw [show (credsRequestOf p).body = credsRequestBody p from rfl, hbody]
    rcases hcb with hc | hb
    · simp [formatHostForRequest, isIPv6, hc]
    · simp [formatHostForRequest, isIPv6, hb]

/-- C3: for every malformed input to either operation (bad baseUrl,
empty clientId, non-JWT identity or bearer token, invalid host, port
or timeout out of range or non-integral, unknown credentialType or
transportProtocol), the call fails with a validation error and hands
no request to the transport. -/
theorem c3_validation_rejects_before_network (net : HttpRequest → HttpOutcome)
    (p : AembitAuthParams) (q : AembitGetCredentialsParams)
    (hp : ¬ authParamsValid p) (hq : ¬ credsParamsValid q) :
    (∃ m, (aembitAuthWithOidc net p).1 = .error (.validation m)) ∧
    (aembitAuthWithOidc net p).2 = [] ∧
    (∃ m, (aembitGetCredentials net q).1 = .error (.validation m)) ∧
    (aembitGetCredentials net q).2 = [] := by
  have hauth : ∃ e, aembitAuthPrepare p = .error e := by
    cases h : aembitAuthPrepare p with
    | error e => exact ⟨e, rfl⟩
    | ok x =>
      obtain ⟨h1, h2, h3, h4, _⟩ := aembitAuthPrepare_ok_elim h
      exact absurd ⟨(exceptToBool_eq_true _).mpr ⟨x.2, h1⟩, h2, h3, h4⟩ hp
  have hcreds : ∃ e, aembitGetCredentialsPrepare q = .error e := by
    cases h : aembitGetCredentialsPrepare q with
    | error e => exact ⟨e, rfl⟩
    | ok x =>
      obtain ⟨h1, h2, h3, h4, h5, h6, h7, h8, _⟩ := aembitGetCredentialsPrepare_ok_elim h
      exact absurd ⟨(exceptToBool_eq_true _).mpr ⟨x.2, h1⟩, h2, h3, h4, h5, h6, h7, h8⟩ hq
  obtain ⟨e1, he1⟩ := hauth
  obtain ⟨e2, he2⟩ := hcreds
  obtain ⟨m1, hm1⟩ := isValidation_exists (aembitAuthPrepare_error_isValidation he1)
  obtain ⟨m2, hm2⟩ := isValidation_exists (aembitGetCredentialsPrepare_error_isValidation he2)
  subst hm1; subst hm2
  refine ⟨⟨m1, ?_⟩, ?_, ⟨m2, ?_⟩, ?_⟩ <;>
    simp [aembitAuthWithOidc, aembitGetCredentials, he1, he2]

/-- C10: the strict revision of getCredentials requires the bearer
token to be JWT shaped, not merely non-empty: for every non-empty
bearer token failing the JWT pattern the call fails with a validation
error and hands no request to the transport. -/
theorem c10_bearer_jwt_required (net : HttpRequest → HttpOutcome)
    (p : AembitGetCredentialsParams)
    (hne : p.bearerToken ≠ "") (hjwt : jwtPatternTest p.bearerToken = false) :
    (∃ m, (aembitGetCredentials net p).1 = .error (.validation m)) ∧
    (aembitGetCredentials net p).2 = [] := by
  cases h : aembitGetCredentialsPrepare p with
  | error e =>
    obtain ⟨m, hm⟩ := isValidation_exists (aembitGetCredentialsPrepare_error_isValidation h)
    subst hm
    exact ⟨⟨m, by simp [aembitGetCredentials, h]⟩, by simp [aembitGetCredentials, h]⟩
  | ok x =>
    obtain ⟨_, _, h3, _⟩ := aembitGetCredentialsPrepare_ok_elim h
    exact absurd (requireJwtFormat_ok_pattern h3) (by simp [hjwt])

lemma validateBaseUrl_ok_parse {v : String} (h : validateBaseUrl v = .ok ()) :
    ∃ u, jsUrlParse v = some u := by
  unfold validateBaseUrl at h
  split at h
  · cases h
  · split at h
    · cases h
    · rename_i u heq
      exact ⟨u, heq⟩

lemma urlResolve_suffix {v path : String} (h : validateBaseUrl v = .ok ()) :
    ∃ a, urlResolve v path = a ++ path := by
  obtain ⟨u, hu⟩ := validateBaseUrl_ok_parse h
  exact ⟨u.scheme ++ "://" ++ u.authority, by rw [urlResolve, hu]⟩

/-- C9: for every valid input, authenticate hands exactly one request
to the transport, a POST to the auth endpoint resolved against the
base URL, with the application/json content type header and the
documented body of clientId and the identity token under client.oidc;
and no call of either operation ever hands more than one request to
the transport. -/
theorem c9_exactly_one_post (net : HttpRequest → HttpOutcome) (p : AembitAuthParams) :
    (authParamsValid p →
      (aembitAuthWithOidc net p).2 =
        [{ url := urlResolve p.baseUrl AUTH_ENDPOINT
           method := "POST"
           headers := [("Content-Type", "application/json")]
           body := .obj [("clientId", .str p.clientId),
                         ("client", .obj [("oidc", .obj [("identityToken", .str p.oidcIdentityToken)])])] }] ∧
      (∃ a, urlResolve p.baseUrl AUTH_ENDPOINT = a ++ "/edge/v1/auth")) ∧
    (aembitAuthWithOidc net p).2.length ≤ 1 ∧
    (∀ q : AembitGetCredentialsParams, (aembitGetCredentials net q).2.length ≤ 1) := by
  refine ⟨?_, ?_, ?_⟩
  · intro hv
    obtain ⟨t, hprep⟩ := authParamsValid_iff_prepare.mp hv
    refine ⟨by simp [aembitAuthWithOidc, hprep]; rfl, ?_⟩
    exact urlResolve_suffix hv.2.1
  · cases h : aembitAuthPrepare p <;> simp [aembitAuthWithOidc, h]
  · intro q
    cases h : aembitGetCredentialsPrepare q <;> simp [aembitGetCredentials, h]

lemma string_length_pos_iff {s : String} : s.length > 0 ↔ s ≠ "" := by
  cases s with
  | mk data =>
    cases data with
    | nil => simp [String.length]
    | cons c cs =>
      simp only [String.length]
      constructor
      · intro _ he
        rw [String.ext_iff] at he
        simp at he
      · intro _
        simp

lemma isNonEmptyString_iff {o : Option Json} :
    isNonEmptyString o = true ↔ ∃ s, o = some (.str s) ∧ s ≠ "" := by
  cases o with
  | none => simp [isNonEmptyString]
  | some j =>
    cases j <;> simp [isNonEmptyString] <;> exact string_length_pos_iff

/-- Shape of a successful auth response body, stated from the words of
the specification: a non-empty accessToken string, a non-empty
tokenType string, and an expiresIn that is a positive integer of at
most 31536000 seconds. -/
def authTokenShapeSpec (j : Json) : Prop :=
  (∃ a, j.getField "accessToken" = some (.str a) ∧ a ≠ "") ∧
  (∃ tt, j.getField "tokenType" = some (.str tt) ∧ tt ≠ "") ∧
  (∃ q : Rat, j.getField "expiresIn" = some (.num q) ∧ q.den = 1 ∧ 0 < q ∧ q ≤ 31536000)

lemma getField_some_isNonNullObject {j : Json} {k : String} {v : Json}
    (h : j.getField k = some v) : j.isNonNullObject = true := by
  cases j <;> simp_all [Json.getField, Json.isNonNullObject]

lemma isAembitTokenDTO_iff {j : Json} :
    isAembitTokenDTO j = true ↔ authTokenShapeSpec j := by
  unfold isAembitTokenDTO authTokenShapeSpec
  constructor
  · intro h
    simp only [Bool.and_eq_true] at h
    obtain ⟨⟨⟨_, hacc⟩, htt⟩, hexp⟩ := h
    obtain ⟨a, ha, hane⟩ := isNonEmptyString_iff.mp hacc
    obtain ⟨tt, httv, httne⟩ := isNonEmptyString_iff.mp htt
    rcases he : j.getField "expiresIn" with _ | v
    · rw [he] at hexp; cases hexp
    · cases v <;> rw [he] at hexp <;> try cases hexp
      rename_i q
      refine ⟨⟨a, ha, hane⟩, ⟨tt, httv, httne⟩, ⟨q, rfl, ?_⟩⟩
      simpa [MAX_EXPIRES_IN_SECONDS, decide_eq_true_eq, and_assoc] using hexp
  · rintro ⟨⟨a, ha, hane⟩, ⟨tt, httv, httne⟩, ⟨q, hq, hden, hpos, hle⟩⟩
    have hobj := getField_some_isNonNullObject ha
    simp only [Bool.and_eq_true]
    refine ⟨⟨⟨hobj, ?_⟩, ?_⟩, ?_⟩
    · exact isNonEmptyString_iff.mpr ⟨a, ha, hane⟩
    · exact isNonEmptyString_iff.mpr ⟨tt, httv, httne⟩
    · rw [hq]
      simp [MAX_EXPIRES_IN_SECONDS, hden, hpos, hle]

/-- C5: authenticate succeeds exactly when the response is 2xx and its
JSON body has a non-empty accessToken, a non-empty tokenType and a
positive integer expiresIn of at most 31536000; a 2xx JSON body
violating the shape fails with the shape error. -/
theorem c5_auth_success_shape (net : HttpRequest → HttpOutcome) (p : AembitAuthParams)
    (r : HttpResponse) (hv : authParamsValid p)
    (hr : net (authRequestOf p) = .response r) :
    ((∃ j, (aembitAuthWithOidc net p).1 = .ok j) ↔
      (r.ok = true ∧ ∃ j, r.jsonBody = some j ∧ authTokenShapeSpec j)) ∧
    (∀ j, r.ok = true → r.jsonBody = some j → ¬ authTokenShapeSpec j →
      (aembitAuthWithOidc net p).1 =
        .error (.shape ("Unexpected response shape from " ++ AUTH_ENDPOINT))) := by
  obtain ⟨t, hprep⟩ := authParamsValid_iff_prepare.mp hv
  have hres : (aembitAuthWithOidc net p).1 =
      authHandleResponse (fetchWithTimeout net (authRequestOf p) t) := by
    simp [aembitAuthWithOidc, hprep]
  have hfetch : fetchWithTimeout net (authRequestOf p) t = .ok r := by
    simp [fetchWithTimeout, hr]
  rw [hres, hfetch]
  by_cases hok : r.ok = true
  · cases hb : r.jsonBody with
    | none =>
      refine ⟨⟨fun ⟨j, hj⟩ => ?_, fun ⟨_, j, hj, _⟩ => ?_⟩, fun j _ hj _ => ?_⟩
      · simp [authHandleResponse, hok, parseJsonResponse, hb] at hj
      · cases hj
      · cases hj
    | some j0 =>
      by_cases hg : isAembitTokenDTO j0 = true
      · refine ⟨⟨fun _ => ⟨hok, j0, rfl, isAembitTokenDTO_iff.mp hg⟩, fun _ => ?_⟩,
               fun j hok2 hj hns => ?_⟩
        · exact ⟨j0, by simp [authHandleResponse, hok, parseJsonResponse, hb, hg]⟩
        · injection hj with hj
          subst hj
          exact absurd (isAembitTokenDTO_iff.mp hg) hns
      · refine ⟨⟨fun ⟨j, hj⟩ => ?_, fun ⟨_, j, hj, hs⟩ => ?_⟩, fun j hok2 hj hns => ?_⟩
        · simp [authHandleResponse, hok, parseJsonResponse, hb, hg] at hj
        · injection hj with hj
          subst hj
          exact absurd (isAembitTokenDTO_iff.mpr hs) hg
        · simp [authHandleResponse, hok, parseJsonResponse, hb, hg]
  · refine ⟨⟨fun ⟨j, hj⟩ => ?_, fun ⟨hok2, _⟩ => absurd hok2 hok⟩,
           fun j hok2 _ _ => absurd hok2 hok⟩
    simp [authHandleResponse, hok] at hj

lemma isValidOptionalDateString_iff {o : Option Json} :
    isValidOptionalDateString o = true ↔
      (o = none ∨ o = some .null ∨ ∃ s, o = some (.str s) ∧ isValidIso8601 s = true) := by
  cases o with
  | none => simp [isValidOptionalDateString]
  | some j => cases j <;> simp [isValidOptionalDateString]

/-- Shape of a successful credentials response body, stated from the
words of the specification: a known credentialType variant with that
variant of the data payload carrying the required non-empty string
fields, and an expiresAt that is absent, null, or a valid ISO 8601
timestamp. -/
def credsShapeSpec (j : Json) : Prop :=
  (j.getField "expiresAt" = none ∨ j.getField "expiresAt" = some .null ∨
    ∃ s, j.getField "expiresAt" = some (.str s) ∧ isValidIso8601 s = true) ∧
  (∃ data, j.getField "data" = some data ∧
    ((j.getField "credentialType" = some (.str "ApiKey") ∧
       ∃ k, data.getField "apiKey" = some (.str k) ∧ k ≠ "") ∨
     (j.getField "credentialType" = some (.str "UsernamePassword") ∧
       (∃ u, data.getField "username" = some (.str u) ∧ u ≠ "") ∧
       (∃ w, data.getField "password" = some (.str w) ∧ w ≠ "")) ∨
     (j.getField "credentialType" = some (.str "OAuthToken") ∧
       ∃ tk, data.getField "token" = some (.str tk) ∧ tk ≠ "")))

lemma isAembitCredentialsResponse_iff {j : Json} :
    isAembitCredentialsResponse j = true ↔ credsShapeSpec j := by
  unfold isAembitCredentialsResponse credsShapeSpec
  constructor
  · intro h
    simp only [Bool.and_eq_true] at h
    obtain ⟨⟨⟨⟨hobj, hct⟩, hd⟩, hexp⟩, hmatch⟩ := h
    refine ⟨isValidOptionalDateString_iff.mp hexp, ?_⟩
    split at hmatch
    · rename_i data hdv
      simp only [Bool.and_eq_true] at hmatch
      obtain ⟨hdo, hsw⟩ := hmatch
      split at hsw
      · rename_i s hctv
        refine ⟨data, hdv, ?_⟩
        by_cases h1 : s = "ApiKey"
        · subst h1
          rw [if_pos rfl] at hsw
          obtain ⟨k, hk, hkne⟩ := isNonEmptyString_iff.mp hsw
          exact .inl ⟨hctv, k, hk, hkne⟩
        · rw [if_neg h1] at hsw
          by_cases h2 : s = "UsernamePassword"
          · subst h2
            rw [if_pos rfl] at hsw
            simp only [Bool.and_eq_true] at hsw
            obtain ⟨hu2, hw2⟩ := hsw
            obtain ⟨u, huv, hune⟩ := isNonEmptyString_iff.mp hu2
            obtain ⟨w, hwv, hwne⟩ := isNonEmptyString_iff.mp hw2
            exact .inr (.inl ⟨hctv, ⟨u, huv, hune⟩, ⟨w, hwv, hwne⟩⟩)
          · rw [if_neg h2] at hsw
            by_cases h3 : s = "OAuthToken"
            · subst h3
              rw [if_pos rfl] at hsw
              obtain ⟨tk, htk, htkne⟩ := isNonEmptyString_iff.mp hsw
              exact .inr (.inr ⟨hctv, tk, htk, htkne⟩)
            · rw [if_neg h3] at hsw
              cases hsw
      · cases hsw
    · cases hmatch
  · rintro ⟨hexp, data, hdv, hcase⟩
    have hobj : j.isNonNullObject = true := getField_some_isNonNullObject hdv
    simp only [Bool.and_eq_true]
    rcases hcase with ⟨hct, k, hk, hkne⟩ | ⟨hct, ⟨u, hu, hune⟩, ⟨w, hw, hwne⟩⟩ | ⟨hct, tk, htk, htkne⟩
    · refine ⟨⟨⟨⟨hobj, by simp [Json.hasField, hct]⟩, by simp [Json.hasField, hdv]⟩,
              isValidOptionalDateString_iff.mpr hexp⟩, ?_⟩
      rw [hdv, hct]
      simp [getField_some_isNonNullObject hk, isNonEmptyString_iff.mpr ⟨k, hk, hkne⟩]
    · refine ⟨⟨⟨⟨hobj, by simp [Json.hasField, hct]⟩, by simp [Json.hasField, hdv]⟩,
              isValidOptionalDateString_iff.mpr hexp⟩, ?_⟩
      rw [hdv, hct]
      simp [getField_some_isNonNullObject hu, isNonEmptyString_iff.mpr ⟨u, hu, hune⟩,
            isNonEmptyString_iff.mpr ⟨w, hw, hwne⟩]
    · refine ⟨⟨⟨⟨hobj, by simp [Json.hasField, hct]⟩, by simp [Json.hasField, hdv]⟩,
              isValidOptionalDateString_iff.mpr hexp⟩, ?_⟩
      rw [hdv, hct]
      simp [getField_some_isNonNullObject htk, isNonEmptyString_iff.mpr ⟨tk, htk, htkne⟩]

/-- C6: getCredentials succeeds exactly when the response is 2xx and
its JSON body carries a known credentialType variant with that
variant of the required non-empty string data fields and an expiresAt
that is absent, null, or a valid ISO 8601 timestamp; a 2xx JSON body
violating the shape fails with the shape error. -/
theorem c6_creds_success_shape (net : HttpRequest → HttpOutcome)
    (p : AembitGetCredentialsParams) (r : HttpResponse) (hv : credsParamsValid p)
    (hr : net (credsRequestOf p) = .response r) :
    ((∃ j, (aembitGetCredentials net p).1 = .ok j) ↔
      (r.ok = true ∧ ∃ j, r.jsonBody = some j ∧ credsShapeSpec j)) ∧
    (∀ j, r.ok = true → r.jsonBody = some j → ¬ credsShapeSpec j →
      (aembitGetCredentials net p).1 =
        .error (.shape ("Unexpected response shape from " ++ CREDENTIALS_ENDPOINT))) := by
  obtain ⟨t, hprep⟩ := credsParamsValid_iff_prepare.mp hv
  have hres : (aembitGetCredentials net p).1 =
      credsHandleResponse (fetchWithTimeout net (credsRequestOf p) t) := by
    simp [aembitGetCredentials, hprep]
  have hfetch : fetchWithTimeout net (credsRequestOf p) t = .ok r := by
    simp [fetchWithTimeout, hr]
  rw [hres, hfetch]
  by_cases hok : r.ok = true
  · cases hb : r.jsonBody with
    | none =>
      refine ⟨⟨fun ⟨j, hj⟩ => ?_, fun ⟨_, j, hj, _⟩ => ?_⟩, fun j _ hj _ => ?_⟩
      · simp [credsHandleResponse, hok, parseJsonResponse, hb] at hj
      · cases hj
      · cases hj
    | some j0 =>
      by_cases hg : isAembitCredentialsResponse j0 = true
      · refine ⟨⟨fun _ => ⟨hok, j0, rfl, isAembitCredentialsResponse_iff.mp hg⟩, fun _ => ?_⟩,
               fun j hok2 hj hns => ?_⟩
        · exact ⟨j0, by simp [credsHandleResponse, hok, parseJsonResponse, hb, hg]⟩
        · injection hj with hj
          subst hj
          exact absurd (isAembitCredentialsResponse_iff.mp hg) hns
      · refine ⟨⟨fun ⟨j, hj⟩ => ?_, fun ⟨_, j, hj, hs⟩ => ?_⟩, fun j hok2 hj hns => ?_⟩
        · simp [credsHandleResponse, hok, parseJsonResponse, hb, hg] at hj
        · injection hj with hj
          subst hj
          exact absurd (isAembitCredentialsResponse_iff.mpr hs) hg
        · simp [credsHandleResponse, hok, parseJsonResponse, hb, hg]
  · refine ⟨⟨fun ⟨j, hj⟩ => ?_, fun ⟨hok2, _⟩ => absurd hok2 hok⟩,
           fun j hok2 _ _ => absurd hok2 hok⟩
    simp [credsHandleResponse, hok] at hj

/-- C8: for every non-2xx response, both operations fail with the api
error whose status and statusText are those of the response, whose
responseBody is the response text truncated at 10000 characters, and
whose message carries the status and statusText while not depending on
the response body. -/
theorem c8_api_error_fields (net : HttpRequest → HttpOutcome)
    (p : AembitAuthParams) (q : AembitGetCredentialsParams) (r1 r2 : HttpResponse)
    (hvp : authParamsValid p) (hvq : credsParamsValid q)
    (hr1 : net (authRequestOf p) = .response r1) (hok1 : r1.ok = false)
    (hr2 : net (credsRequestOf q) = .response r2) (hok2 : r2.ok = false) :
    (aembitAuthWithOidc net p).1 =
      .error (.api AUTH_ENDPOINT r1.status r1.statusText (readErrorBody r1.text)) ∧
    (aembitGetCredentials net q).1 =
      .error (.api CREDENTIALS_ENDPOINT r2.status r2.statusText (readErrorBody r2.text)) ∧
    (r1.text.length ≤ 10000 → readErrorBody r1.text = r1.text) ∧
    (r1.text.length > 10000 →
      readErrorBody r1.text = jsTake r1.text 10000 ++ "... (truncated)") ∧
    (∀ e s b, ∃ a, (AembitError.api e s r1.statusText b).message =
      a ++ toString s ++ " " ++ r1.statusText) ∧
    (∀ e s t b b2, (AembitError.api e s t b).message = (AembitError.api e s t b2).message) := by
  obtain ⟨t1, hprep1⟩ := authParamsValid_iff_prepare.mp hvp
  obtain ⟨t2, hprep2⟩ := credsParamsValid_iff_prepare.mp hvq
  refine ⟨?_, ?_, ?_, ?_, ?_, ?_⟩
  · have hfetch : fetchWithTimeout net (authRequestOf p) t1 = .ok r1 := by
      simp [fetchWithTimeout, hr1]
    simp [aembitAuthWithOidc, hprep1, hfetch, authHandleResponse, hok1]
  · have hfetch : fetchWithTimeout net (credsRequestOf q) t2 = .ok r2 := by
      simp [fetchWithTimeout, hr2]
    simp [aembitGetCredentials, hprep2, hfetch, credsHandleResponse, hok2]
  · intro h
    simp [readErrorBody, MAX_ERROR_BODY_BYTES, Nat.not_lt.mpr h]
  · intro h
    simp [readErrorBody, MAX_ERROR_BODY_BYTES, h]
  · intro e s b
    exact ⟨"Aembit " ++ e ++ " failed: ", by
      simp [AembitError.message, aembitApiErrorMessage, String.append_assoc]⟩
  · intro e s t b b2
    rfl

/-- C4: for every UsernamePassword credentials response whose username
contains a colon, extractCredentialValue fails with the format error
and returns no string at all. -/
theorem c4_username_colon_format_error (e : Option (Option String)) (u pw : String)
    (h : jsContainsChar u ':' = true) :
    extractCredentialValue (some (.usernamePassword e u pw)) =
      .error (.format "Username contains a colon, which is not allowed per RFC 7617 Basic Auth format") ∧
    ∀ v, extractCredentialValue (some (.usernamePassword e u pw)) ≠ .ok v := by
  constructor
  · simp [extractCredentialValue, h]
  · intro v hv
    simp [extractCredentialValue, h] at hv

/-- Witness for C4 at the concrete username a:b. -/
theorem c4_username_colon_format_error_witness :
    jsContainsChar "a:b" ':' = true ∧
    extractCredentialValue (some (.usernamePassword none "a:b" "p")) =
      .error (.format "Username contains a colon, which is not allowed per RFC 7617 Basic Auth format") :=
  ⟨by decide, (c4_username_colon_format_error none "a:b" "p" (by decide)).1⟩

/-- Counterexample to C1 as stated: the UsernamePassword response with
username user:x and password pw is well formed (both fields non-empty),
yet extractCredentialValue does not return the colon join of the two
fields; it raises the format error instead. -/
theorem c1_counterexample_colon_username :
    wellFormedCredsResponse (.usernamePassword none "user:x" "pw") = true ∧
    extractCredentialValue (some (.usernamePassword none "user:x" "pw")) ≠
      .ok (some ("user:x" ++ ":" ++ "pw")) ∧
    extractCredentialValue (some (.usernamePassword none "user:x" "pw")) =
      .error (.format "Username contains a colon, which is not allowed per RFC 7617 Basic Auth format") := by
  refine ⟨by decide, by decide, by decide⟩

/-- C1 (amended): extractCredentialValue maps null to null, an
OAuthToken response to its token, an ApiKey response to its key, and a
UsernamePassword response whose username does not contain a colon to
username:password. -/
theorem c1_extract_mapping :
    extractCredentialValue none = .ok none ∧
    (∀ e t, extractCredentialValue (some (.oauthToken e t)) = .ok (some t)) ∧
    (∀ e k, extractCredentialValue (some (.apiKey e k)) = .ok (some k)) ∧
    (∀ e u pw, jsContainsChar u ':' = false →
      extractCredentialValue (some (.usernamePassword e u pw)) = .ok (some (u ++ ":" ++ pw))) := by
  refine ⟨rfl, fun e t => rfl, fun e k => rfl, fun e u pw h => ?_⟩
  simp [extractCredentialValue, h]

/-- Witness for the amended C1 at concrete inputs. -/
theorem c1_extract_mapping_witness :
    extractCredentialValue (some (.oauthToken (some none) "t")) = .ok (some "t") ∧
    jsContainsChar "u" ':' = false ∧
    extractCredentialValue (some (.usernamePassword none "u" "p")) = .ok (some "u:p") :=
  ⟨c1_extract_mapping.2.1 (some none) "t", by decide,
   c1_extract_mapping.2.2.2 none "u" "p" (by decide)⟩

/-- The last n characters of a string, as the claim about maskSecret
reads the visible suffix. -/
def lastChars (s : String) (n : Nat) : String :=
  String.mk (s.toList.drop (s.toList.length - n))

/-- Counterexample to C7 as stated: with visibleStart 1 and visibleEnd
0 on the six character input abcdef the code appends the entire string
after the mask (the JavaScript slice(-0) is slice(0)), not the last
zero characters. -/
theorem c7_counterexample_zero_visible_end :
    maskSecret (.str "abcdef") (some ⟨some 1, some 0, some "****"⟩) = some "a****abcdef" ∧
    maskSecret (.str "abcdef") (some ⟨some 1, some 0, some "****"⟩) ≠
      some (jsTake "abcdef" 1 ++ "****" ++ lastChars "abcdef" 0) := by
  refine ⟨by decide, by decide⟩

/-- C7 (amended): maskSecret is null for every non-string value, the
mask alone when the string is no longer than visibleStart plus
visibleEnd, and otherwise the first visibleStart characters, the mask,
and the last visibleEnd characters, provided visibleEnd is positive
(with visibleEnd zero the code appends the whole string instead); in
particular the default masking of 1234567890 is 1234****7890. -/
theorem c7_maskSecret_behaviour :
    (∀ (v : Json) (opts : Option MaskSecretOptions), v.isString = false → maskSecret v opts = none) ∧
    (∀ (s : String) (vs ve : Nat) (mk : String), s.length ≤ vs + ve →
      maskSecret (.str s) (some ⟨some vs, some ve, some mk⟩) = some mk) ∧
    (∀ (s : String) (vs ve : Nat) (mk : String), s.length > vs + ve → 1 ≤ ve →
      maskSecret (.str s) (some ⟨some vs, some ve, some mk⟩) =
        some (jsTake s vs ++ mk ++ lastChars s ve)) ∧
    maskSecret (.str "1234567890") none = some "1234****7890" := by
  refine ⟨?_, ?_, ?_, by decide⟩
  · intro v opts h
    cases v <;> simp_all [maskSecret, Json.isString]
  · intro s vs ve mk h
    simp [maskSecret, h]
  · intro s vs ve mk h hve
    have hnle : ¬ (s.length ≤ vs + ve) := Nat.not_le.mpr h
    have hvel : ve ≤ s.length := by omega
    have hve0 : ¬ (ve = 0) := by omega
    simp [maskSecret, hnle, hve0, Nat.min_eq_left hvel, jsSliceFromEnd, jsDrop, lastChars]

-- Concrete inputs used by the witnesses.

def sampleAuthParams : AembitAuthParams :=
  { baseUrl := "https://tenant.example.com"
    clientId := "client-1"
    oidcIdentityToken := "aaa.bbb.ccc"
    timeoutMs := none }

def sampleCredsParams : AembitGetCredentialsParams :=
  { baseUrl := "https://tenant.example.com"
    bearerToken := "aaa.bbb.ccc"
    oidcIdentityToken := "aaa.bbb.ccc"
    host := "::1"
    port := 443
    credentialType := "OAuthToken"
    transportProtocol := none
    timeoutMs := none }

def badAuthParams : AembitAuthParams :=
  { baseUrl := "not a url"
    clientId := "client-1"
    oidcIdentityToken := "aaa.bbb.ccc"
    timeoutMs := none }

def badCredsParams : AembitGetCredentialsParams :=
  { baseUrl := "https://tenant.example.com"
    bearerToken := "aaa.bbb.ccc"
    oidcIdentityToken := "aaa.bbb.ccc"
    host := "api.example.com"
    port := 0
    credentialType := "OAuthToken"
    transportProtocol := none
    timeoutMs := none }

def badBearerCredsParams : AembitGetCredentialsParams :=
  { baseUrl := "https://tenant.example.com"
    bearerToken := "not-a-jwt"
    oidcIdentityToken := "aaa.bbb.ccc"
    host := "api.example.com"
    port := 443
    credentialType := "OAuthToken"
    transportProtocol := none
    timeoutMs := none }

def sampleTokenBody : Json :=
  .obj [("accessToken", .str "token123"), ("tokenType", .str "Bearer"), ("expiresIn", .num 3600)]

def sampleOkTokenResponse : HttpResponse :=
  { status := 200, statusText := "OK", jsonBody := some sampleTokenBody, text := "" }

def sampleCredsBody : Json :=
  .obj [("credentialType", .str "OAuthToken"),
        ("data", .obj [("token", .str "oauth-abc")]),
        ("expiresAt", .null)]

def sampleOkCredsResponse : HttpResponse :=
  { status := 200, statusText := "OK", jsonBody := some sampleCredsBody, text := "" }

def sampleUnauthorizedResponse : HttpResponse :=
  { status := 401, statusText := "Unauthorized", jsonBody := none, text := "Invalid token" }

/-- Witness for C2 at a bare IPv6 host. -/
theorem c2_server_host_formatting_witness :
    aembitGetCredentialsPrepare sampleCredsParams = .ok (credsRequestOf sampleCredsParams, 30000) ∧
    jsContainsChar sampleCredsParams.host ':' = true ∧
    jsStartsWith sampleCredsParams.host "[" = false ∧
    ((credsRequestOf sampleCredsParams).body.getField "server").bind (fun s => s.getField "host") =
      some (.str ("[" ++ sampleCredsParams.host ++ "]")) :=
  ⟨rfl, by decide, by decide,
   (c2_server_host_formatting sampleCredsParams (credsRequestOf sampleCredsParams) 30000 rfl).1
     ⟨by decide, by decide⟩⟩

/-- Witness for C3 at a malformed base URL and an out-of-range port. -/
theorem c3_validation_rejects_before_network_witness :
    ¬ authParamsValid badAuthParams ∧ ¬ credsParamsValid badCredsParams ∧
    (∃ m, (aembitAuthWithOidc (fun _ => .timedOut) badAuthParams).1 = .error (.validation m)) ∧
    (aembitAuthWithOidc (fun _ => .timedOut) badAuthParams).2 = [] ∧
    (∃ m, (aembitGetCredentials (fun _ => .timedOut) badCredsParams).1 = .error (.validation m)) ∧
    (aembitGetCredentials (fun _ => .timedOut) badCredsParams).2 = [] := by
  have h1 : ¬ authParamsValid badAuthParams := by decide
  have h2 : ¬ credsParamsValid badCredsParams := by decide
  obtain ⟨a, b, c, d⟩ :=
    c3_validation_rejects_before_network (fun _ => .timedOut) badAuthParams badCredsParams h1 h2
  exact ⟨h1, h2, a, b, c, d⟩

/-- Witness for C5 at a valid call and a well-shaped 200 response. -/
theorem c5_auth_success_shape_witness :
    authParamsValid sampleAuthParams ∧
    ((∃ j, (aembitAuthWithOidc (fun _ => .response sampleOkTokenResponse) sampleAuthParams).1 = .ok j) ↔
      (sampleOkTokenResponse.ok = true ∧
        ∃ j, sampleOkTokenResponse.jsonBody = some j ∧ authTokenShapeSpec j)) :=
  ⟨by decide,
   (c5_auth_success_shape (fun _ => .response sampleOkTokenResponse) sampleAuthParams
     sampleOkTokenResponse (by decide) rfl).1⟩

/-- Witness for C6 at a valid call and a well-shaped 200 response. -/
theorem c6_creds_success_shape_witness :
    credsParamsValid sampleCredsParams ∧
    ((∃ j, (aembitGetCredentials (fun _ => .response sampleOkCredsResponse) sampleCredsParams).1 = .ok j) ↔
      (sampleOkCredsResponse.ok = true ∧
        ∃ j, sampleOkCredsResponse.jsonBody = some j ∧ credsShapeSpec j)) :=
  ⟨by decide,
   (c6_creds_success_shape (fun _ => .response sampleOkCredsResponse) sampleCredsParams
     sampleOkCredsResponse (by decide) rfl).1⟩

/-- Witness for C8 at a 401 Unauthorized response with body Invalid
token. -/
theorem c8_api_error_fields_witness :
    authParamsValid sampleAuthParams ∧ credsParamsValid sampleCredsParams ∧
    sampleUnauthorizedResponse.ok = false ∧
    (aembitAuthWithOidc (fun _ => .response sampleUnauthorizedResponse) sampleAuthParams).1 =
      .error (.api AUTH_ENDPOINT 401 "Unauthorized" "Invalid token") ∧
    (aembitGetCredentials (fun _ => .response sampleUnauthorizedResponse) sampleCredsParams).1 =
      .error (.api CREDENTIALS_ENDPOINT 401 "Unauthorized" "Invalid token") :=
  ⟨by decide, by decide, by decide,
   (c8_api_error_fields (fun _ => .response sampleUnauthorizedResponse)
     sampleAuthParams sampleCredsParams sampleUnauthorizedResponse sampleUnauthorizedResponse
     (by decide) (by decide) rfl (by decide) rfl (by decide)).1,
   (c8_api_error_fields (fun _ => .response sampleUnauthorizedResponse)
     sampleAuthParams sampleCredsParams sampleUnauthorizedResponse sampleUnauthorizedResponse
     (by decide) (by decide) rfl (by decide) rfl (by decide)).2.1⟩

/-- Witness for C9 at a valid call. -/
theorem c9_exactly_one_post_witness :
    authParamsValid sampleAuthParams ∧
    (aembitAuthWithOidc (fun _ => .timedOut) sampleAuthParams).2 =
      [{ url := urlResolve sampleAuthParams.baseUrl AUTH_ENDPOINT
         method := "POST"
         headers := [("Content-Type", "application/json")]
         body := .obj [("clientId", .str sampleAuthParams.clientId),
                       ("client", .obj [("oidc", .obj [("identityToken", .str sampleAuthParams.oidcIdentityToken)])])] }] ∧
    (∃ a, urlResolve sampleAuthParams.baseUrl AUTH_ENDPOINT = a ++ "/edge/v1/auth") :=
  ⟨by decide,
   ((c9_exactly_one_post (fun _ => .timedOut) sampleAuthParams).1 (by decide)).1,
   ((c9_exactly_one_post (fun _ => .timedOut) sampleAuthParams).1 (by decide)).2⟩

/-- Witness for C10 at a non-empty bearer token that is not JWT
shaped. -/
theorem c10_bearer_jwt_required_witness :
    badBearerCredsParams.bearerToken ≠ "" ∧
    jwtPatternTest badBearerCredsParams.bearerToken = false ∧
    (∃ m, (aembitGetCredentials (fun _ => .timedOut) badBearerCredsParams).1 = .error (.validation m)) ∧
    (aembitGetCredentials (fun _ => .timedOut) badBearerCredsParams).2 = [] := by
  have h1 : badBearerCredsParams.bearerToken ≠ "" := by decide
  have h2 : jwtPatternTest badBearerCredsParams.bearerToken = false := by decide
  obtain ⟨a, b⟩ := c10_bearer_jwt_required (fun _ => .timedOut) badBearerCredsParams h1 h2
  exact ⟨h1, h2, a, b⟩

/-- Witness for the amended C7 at concrete inputs. -/
theorem c7_maskSecret_behaviour_witness :
    maskSecret (.bool true) none = none ∧
    maskSecret (.str "abc") (some ⟨some 2, some 2, some "XX"⟩) = some "XX" ∧
    maskSecret (.str "1234567890") (some ⟨some 4, some 4, some "****"⟩) =
      some (jsTake "1234567890" 4 ++ "****" ++ lastChars "1234567890" 4) :=
  ⟨c7_maskSecret_behaviour.1 (.bool true) none (by decide),
   c7_maskSecret_behaviour.2.1 "abc" 2 2 "XX" (by decide),
   c7_maskSecret_behaviour.2.2.1 "1234567890" 4 4 "****" (by decide) (by decide)⟩
